import Mathlib

/-!
Shallow embedding of the LRU state cache in `turbo/shards/state_cache.go`:
the three cache item variants, their heterogeneous key ordering, the two
B-tree indices (`readWrites`, `writes`), the two heaps sharing one backing
array, and the public mutation and lookup operations.

Go machine integers stay far from overflow here (sequence numbers, flag
masks below 4, heap indices), so they are modelled as `Nat`, except that
`queuePos` and raw heap indices are modelled as `Int` because Go code can
compute negative values for them (for example `heap.Pop` on an empty heap
computes index `-1`).  A Go panic (out-of-range slice index, method call on
a nil interface, failed type assertion, explicit `panic`) is modelled as
`none`: every fallible operation returns an `Option`.
-/

/-- byte-wise lexicographic comparison, as `bytes.Compare` in Go:
compare element-wise; a strict prefix sorts before the longer slice. -/
def bytesCompare : List Nat → List Nat → Ordering
  | [], [] => Ordering.eq
  | [], _ :: _ => Ordering.lt
  | _ :: _, [] => Ordering.gt
  | a :: as, b :: bs =>
    if a < b then Ordering.lt
    else if b < a then Ordering.gt
    else bytesCompare as bs

/-- `copy(dst, src)` in Go: overwrite the first `min |dst| |src|` elements
of `dst` with those of `src`, keep the tail of `dst`. -/
def copyInto (dst src : List Nat) : List Nat :=
  src.take (min dst.length src.length) ++ dst.drop (min dst.length src.length)

/-- `var x [n]byte; copy(x[:], src)`: truncate or zero-pad `src` to length `n`. -/
def copyFixed (n : Nat) (src : List Nat) : List Nat :=
  copyInto (List.replicate n 0) src

/-- `ModifiedFlag uint16 = 1` -/
def ModifiedFlag : Nat := 1

/-- `DeletedFlag uint16 = 2` -/
def DeletedFlag : Nat := 2

/-- The three cache item structs (`AccountCacheItem`, `StorageCacheItem`,
`CodeCacheItem`).  Addresses are 20-byte lists, locations and storage
values 32-byte lists; the account body is opaque in the cache (modelled
from the spec: an opaque value that is byte-copied, zeroed by `Reset`), so
it is a single `Nat`.  A `code` of `none` is Go's nil byte slice. -/
inductive CacheItem where
  | accountItem (address : List Nat) (account : Nat)
      (sequence : Nat) (queuePos : Int) (flags : Nat)
  | storageItem (address : List Nat) (incarnation : Nat) (location : List Nat)
      (value : List Nat) (sequence : Nat) (queuePos : Int) (flags : Nat)
  | codeItem (address : List Nat) (code : Option (List Nat))
      (sequence : Nat) (queuePos : Int) (flags : Nat)
deriving DecidableEq, Inhabited

/-- The key part of an item: what the B-tree ordering depends on. -/
inductive CacheKey where
  | accountKey (address : List Nat)
  | storageKey (address : List Nat) (incarnation : Nat) (location : List Nat)
  | codeKey (address : List Nat)
deriving DecidableEq

def CacheKey.address : CacheKey → List Nat
  | .accountKey a => a
  | .storageKey a _ _ => a
  | .codeKey a => a

def CacheItem.key : CacheItem → CacheKey
  | .accountItem a _ _ _ _ => .accountKey a
  | .storageItem a i l _ _ _ _ => .storageKey a i l
  | .codeItem a _ _ _ _ => .codeKey a

def CacheItem.GetSequence : CacheItem → Nat
  | .accountItem _ _ s _ _ => s
  | .storageItem _ _ _ _ s _ _ => s
  | .codeItem _ _ s _ _ => s

def CacheItem.SetSequence : CacheItem → Nat → CacheItem
  | .accountItem a v _ q f, s => .accountItem a v s q f
  | .storageItem a i l v _ q f, s => .storageItem a i l v s q f
  | .codeItem a c _ q f, s => .codeItem a c s q f

def CacheItem.GetQueuePos : CacheItem → Int
  | .accountItem _ _ _ q _ => q
  | .storageItem _ _ _ _ _ q _ => q
  | .codeItem _ _ _ q _ => q

def CacheItem.SetQueuePos : CacheItem → Int → CacheItem
  | .accountItem a v s _ f, q => .accountItem a v s q f
  | .storageItem a i l v s _ f, q => .storageItem a i l v s q f
  | .codeItem a c s _ f, q => .codeItem a c s q f

def CacheItem.GetFlags : CacheItem → Nat
  | .accountItem _ _ _ _ f => f
  | .storageItem _ _ _ _ _ _ f => f
  | .codeItem _ _ _ _ f => f

/-- direct assignment to the `flags` field, as `aci.flags = …` in the setters. -/
def CacheItem.SetFlagsTo : CacheItem → Nat → CacheItem
  | .accountItem a v s q _, f => .accountItem a v s q f
  | .storageItem a i l v s q _, f => .storageItem a i l v s q f
  | .codeItem a c s q _, f => .codeItem a c s q f

/-- `flags & flag != 0` -/
def CacheItem.HasFlag (it : CacheItem) (flag : Nat) : Bool :=
  Nat.land it.GetFlags flag != 0

/-- `flags &^= flags'`: clear the given bits.  Subtracting the common bits
`x.land y` from `x` is exactly bitwise AND-NOT, since `x.land y` has no bit
outside `x`. -/
def CacheItem.ClearFlags (it : CacheItem) (flag : Nat) : CacheItem :=
  it.SetFlagsTo (it.GetFlags - Nat.land it.GetFlags flag)

/-- The `Less` methods of the three item types: runtime dispatch on both
variants; primary key is the address by `bytes.Compare`; at equal
addresses Account sorts before Code and Storage, Code before Storage, and
Storage items compare by incarnation then location. -/
def CacheItem.Less : CacheItem → CacheItem → Bool
  | .accountItem a _ _ _ _, .accountItem b _ _ _ _ => bytesCompare a b == .lt
  | .accountItem a _ _ _ _, .storageItem b _ _ _ _ _ _ =>
    -- Account comes before its storage items
    if bytesCompare a b == .eq then true else bytesCompare a b == .lt
  | .accountItem a _ _ _ _, .codeItem b _ _ _ _ =>
    -- Account comes before its code
    if bytesCompare a b == .eq then true else bytesCompare a b == .lt
  | .storageItem a _ _ _ _ _ _, .accountItem b _ _ _ _ =>
    -- Account comes before its storage items
    if bytesCompare a b == .eq then false else bytesCompare a b == .lt
  | .storageItem a ai al _ _ _ _, .storageItem b bi bl _ _ _ _ =>
    if bytesCompare a b == .eq then
      if ai == bi then bytesCompare al bl == .lt else decide (ai < bi)
    else bytesCompare a b == .lt
  | .storageItem a _ _ _ _ _ _, .codeItem b _ _ _ _ =>
    -- Code comes before storage items
    if bytesCompare a b == .eq then false else bytesCompare a b == .lt
  | .codeItem a _ _ _ _, .accountItem b _ _ _ _ =>
    -- Account before its code
    if bytesCompare a b == .eq then false else bytesCompare a b == .lt
  | .codeItem a _ _ _ _, .storageItem b _ _ _ _ _ _ =>
    -- Code comes before storage items
    if bytesCompare a b == .eq then true else bytesCompare a b == .lt
  | .codeItem a _ _ _ _, .codeItem b _ _ _ _ => bytesCompare a b == .lt

/-- rank of the item class in the documented order Account < Code < Storage. -/
def classRank : CacheKey → Nat
  | .accountKey _ => 0
  | .codeKey _ => 1
  | .storageKey _ _ _ => 2

/-- Modelled from the spec: the documented total order on keys — address
lexicographically, then class rank Account < Code < Storage, then for two
storage keys incarnation ascending and location lexicographically. -/
def specKeyLess (x y : CacheKey) : Bool :=
  match bytesCompare x.address y.address with
  | .lt => true
  | .gt => false
  | .eq =>
    match x, y with
    | .storageKey _ xi xl, .storageKey _ yi yl =>
      if xi == yi then bytesCompare xl yl == .lt else decide (xi < yi)
    | x, y => decide (classRank x < classRank y)

theorem ordBeq (x y : Ordering) : (x == y) = decide (x = y) := by
  cases x <;> cases y <;> rfl

theorem bytesCompare_eq_iff : ∀ a b : List Nat, bytesCompare a b = .eq ↔ a = b := by
  intro a
  induction a with
  | nil => intro b; cases b <;> simp [bytesCompare]
  | cons x as ih =>
    intro b
    cases b with
    | nil => simp [bytesCompare]
    | cons y bs =>
      rcases Nat.lt_trichotomy x y with h | h | h
      · simp [bytesCompare, h, Nat.ne_of_lt h]
      · subst h
        simp [bytesCompare, ih bs]
      · simp [bytesCompare, h, Nat.lt_asymm h, (Nat.ne_of_lt h).symm]

theorem bytesCompare_lt_iff_gt : ∀ a b : List Nat,
    bytesCompare a b = .lt ↔ bytesCompare b a = .gt := by
  intro a
  induction a with
  | nil => intro b; cases b <;> simp [bytesCompare]
  | cons x as ih =>
    intro b
    cases b with
    | nil => simp [bytesCompare]
    | cons y bs =>
      rcases Nat.lt_trichotomy x y with h | h | h
      · simp [bytesCompare, h, Nat.lt_asymm h]
      · subst h
        simp [bytesCompare, ih bs]
      · simp [bytesCompare, h, Nat.lt_asymm h]

/-- address trichotomy: for any two byte strings exactly one of the three
comparison outcomes holds, and the reverse comparison mirrors it. -/
theorem addrTri (a b : List Nat) :
    (bytesCompare a b = .lt ∧ bytesCompare b a = .gt ∧ a ≠ b)
    ∨ (bytesCompare a b = .eq ∧ bytesCompare b a = .eq ∧ a = b)
    ∨ (bytesCompare a b = .gt ∧ bytesCompare b a = .lt ∧ a ≠ b) := by
  rcases hc : bytesCompare a b with _ | _ | _
  · refine Or.inl ⟨rfl, (bytesCompare_lt_iff_gt a b).mp hc, ?_⟩
    intro h
    subst h
    rw [(bytesCompare_eq_iff a a).mpr rfl] at hc
    cases hc
  · have hab : a = b := (bytesCompare_eq_iff a b).mp hc
    subst hab
    exact Or.inr (Or.inl ⟨rfl, hc, rfl⟩)
  · refine Or.inr (Or.inr ⟨rfl, (bytesCompare_lt_iff_gt b a).mpr hc, ?_⟩)
    intro h
    subst h
    rw [(bytesCompare_eq_iff a a).mpr rfl] at hc
    cases hc

theorem Less_eq_specKeyLess (x y : CacheItem) :
    x.Less y = specKeyLess x.key y.key := by
  cases x with
  | accountItem a v s q f =>
    cases y with
    | accountItem b bv bs bq bf =>
      rcases addrTri a b with ⟨h1, h2, h3⟩ | ⟨h1, h2, h3⟩ | ⟨h1, h2, h3⟩ <;>
        simp_all [CacheItem.Less, CacheItem.key, specKeyLess, CacheKey.address, classRank, ordBeq]
    | storageItem b bi bl bv bs bq bf =>
      rcases addrTri a b with ⟨h1, h2, h3⟩ | ⟨h1, h2, h3⟩ | ⟨h1, h2, h3⟩ <;>
        simp_all [CacheItem.Less, CacheItem.key, specKeyLess, CacheKey.address, classRank, ordBeq]
    | codeItem b bc bs bq bf =>
      rcases addrTri a b with ⟨h1, h2, h3⟩ | ⟨h1, h2, h3⟩ | ⟨h1, h2, h3⟩ <;>
        simp_all [CacheItem.Less, CacheItem.key, specKeyLess, CacheKey.address, classRank, ordBeq]
  | storageItem a ai al av s q f =>
    cases y with
    | accountItem b bv bs bq bf =>
      rcases addrTri a b with ⟨h1, h2, h3⟩ | ⟨h1, h2, h3⟩ | ⟨h1, h2, h3⟩ <;>
        simp_all [CacheItem.Less, CacheItem.key, specKeyLess, CacheKey.address, classRank, ordBeq]
    | storageItem b bi bl bv bs bq bf =>
      rcases addrTri a b with ⟨h1, h2, h3⟩ | ⟨h1, h2, h3⟩ | ⟨h1, h2, h3⟩ <;>
        simp_all [CacheItem.Less, CacheItem.key, specKeyLess, CacheKey.address, classRank, ordBeq]
    | codeItem b bc bs bq bf =>
      rcases addrTri a b with ⟨h1, h2, h3⟩ | ⟨h1, h2, h3⟩ | ⟨h1, h2, h3⟩ <;>
        simp_all [CacheItem.Less, CacheItem.key, specKeyLess, CacheKey.address, classRank, ordBeq]
  | codeItem a c s q f =>
    cases y with
    | accountItem b bv bs bq bf =>
      rcases addrTri a b with ⟨h1, h2, h3⟩ | ⟨h1, h2, h3⟩ | ⟨h1, h2, h3⟩ <;>
        simp_all [CacheItem.Less, CacheItem.key, specKeyLess, CacheKey.address, classRank, ordBeq]
    | storageItem b bi bl bv bs bq bf =>
      rcases addrTri a b with ⟨h1, h2, h3⟩ | ⟨h1, h2, h3⟩ | ⟨h1, h2, h3⟩ <;>
        simp_all [CacheItem.Less, CacheItem.key, specKeyLess, CacheKey.address, classRank, ordBeq]
    | codeItem b bc bs bq bf =>
      rcases addrTri a b with ⟨h1, h2, h3⟩ | ⟨h1, h2, h3⟩ | ⟨h1, h2, h3⟩ <;>
        simp_all [CacheItem.Less, CacheItem.key, specKeyLess, CacheKey.address, classRank, ordBeq]

theorem Less_trichotomy (x y : CacheItem) :
    (x.key = y.key ∧ x.Less y = false ∧ y.Less x = false)
    ∨ (x.Less y = true ∧ y.Less x = false ∧ x.key ≠ y.key)
    ∨ (y.Less x = true ∧ x.Less y = false ∧ x.key ≠ y.key) := by
  cases x with
  | accountItem a v s q f =>
    cases y with
    | accountItem b bv bs bq bf =>
      rcases addrTri a b with ⟨h1, h2, h3⟩ | ⟨h1, h2, h3⟩ | ⟨h1, h2, h3⟩ <;>
        simp_all [CacheItem.Less, CacheItem.key, ordBeq]
    | storageItem b bi bl bv bs bq bf =>
      rcases addrTri a b with ⟨h1, h2, h3⟩ | ⟨h1, h2, h3⟩ | ⟨h1, h2, h3⟩ <;>
        simp_all [CacheItem.Less, CacheItem.key, ordBeq]
    | codeItem b bc bs bq bf =>
      rcases addrTri a b with ⟨h1, h2, h3⟩ | ⟨h1, h2, h3⟩ | ⟨h1, h2, h3⟩ <;>
        simp_all [CacheItem.Less, CacheItem.key, ordBeq]
  | storageItem a ai al av s q f =>
    cases y with
    | accountItem b bv bs bq bf =>
      rcases addrTri a b with ⟨h1, h2, h3⟩ | ⟨h1, h2, h3⟩ | ⟨h1, h2, h3⟩ <;>
        simp_all [CacheItem.Less, CacheItem.key, ordBeq]
    | codeItem b bc bs bq bf =>
      rcases addrTri a b with ⟨h1, h2, h3⟩ | ⟨h1, h2, h3⟩ | ⟨h1, h2, h3⟩ <;>
        simp_all [CacheItem.Less, CacheItem.key, ordBeq]
    | storageItem b bi bl bv bs bq bf =>
      rcases addrTri a b with ⟨h1, h2, h3⟩ | ⟨h1, h2, h3⟩ | ⟨h1, h2, h3⟩
      · simp_all [CacheItem.Less, CacheItem.key, ordBeq]
      · subst h3
        rcases Nat.lt_trichotomy ai bi with hi | hi | hi
        · right; left
          simp_all [CacheItem.Less, CacheItem.key, ordBeq, Nat.ne_of_lt hi, Nat.lt_asymm hi]
          exact fun h => absurd h (by omega)
        · subst hi
          rcases addrTri al bl with ⟨g1, g2, g3⟩ | ⟨g1, g2, g3⟩ | ⟨g1, g2, g3⟩
          · right; left
            simp_all [CacheItem.Less, CacheItem.key, ordBeq]
          · subst g3
            left
            simp_all [CacheItem.Less, CacheItem.key, ordBeq]
          · right; right
            simp_all [CacheItem.Less, CacheItem.key, ordBeq]
        · right; right
          simp_all [CacheItem.Less, CacheItem.key, ordBeq, Nat.ne_of_lt hi, Nat.lt_asymm hi]
          exact ⟨fun h => absurd h (by omega), fun h => absurd h (by omega)⟩
      · simp_all [CacheItem.Less, CacheItem.key, ordBeq]
  | codeItem a c s q f =>
    cases y with
    | accountItem b bv bs bq bf =>
      rcases addrTri a b with ⟨h1, h2, h3⟩ | ⟨h1, h2, h3⟩ | ⟨h1, h2, h3⟩ <;>
        simp_all [CacheItem.Less, CacheItem.key, ordBeq]
    | storageItem b bi bl bv bs bq bf =>
      rcases addrTri a b with ⟨h1, h2, h3⟩ | ⟨h1, h2, h3⟩ | ⟨h1, h2, h3⟩ <;>
        simp_all [CacheItem.Less, CacheItem.key, ordBeq]
    | codeItem b bc bs bq bf =>
      rcases addrTri a b with ⟨h1, h2, h3⟩ | ⟨h1, h2, h3⟩ | ⟨h1, h2, h3⟩ <;>
        simp_all [CacheItem.Less, CacheItem.key, ordBeq]

/-! ## The cache state

Heap items are aliased: the same item object sits in a B-tree and in a heap
slot, and heap reshuffles mutate its `queuePos` field in place.  The model
therefore keeps all items in an arena `store` (an item's id is its index,
ids are never reused) and lets the B-trees and heap slots hold ids. -/

abbrev ItemId := Nat

structure StateCache where
  /-- arena of all items ever allocated; mutation goes through `setItem`. -/
  store : List CacheItem
  /-- the `readWrites` B-tree: ids of live items, kept sorted by `Less`. -/
  readWrites : List ItemId
  /-- the `writes` B-tree: ids, kept sorted by `Less`. -/
  writes : List ItemId
  /-- the backing array shared by both heaps; `none` is a nil slot. -/
  heapItems : List (Option ItemId)
  /-- `readQueue.end`: the read heap occupies slots `[0, readEnd)`. -/
  readEnd : Nat
  /-- `writeQueue.start`: the write heap occupies slots `[writeStart, N)`. -/
  writeStart : Nat
  limitReads : Nat
  limitWrites : Nat
  sequence : Nat
deriving DecidableEq

def getItem (sc : StateCache) (id : ItemId) : CacheItem :=
  (sc.store.get? id).getD default

def setItem (sc : StateCache) (id : ItemId) (it : CacheItem) : StateCache :=
  { sc with store := sc.store.set id it }

/-- read the raw backing-array slot `i`; `none` is an out-of-range index
(a Go panic at the caller), `some none` a nil slot. -/
def slotGet (sc : StateCache) (i : Int) : Option (Option ItemId) :=
  if 0 ≤ i then sc.heapItems.get? i.toNat else none

def slotSet (sc : StateCache) (i : Int) (v : Option ItemId) : Option StateCache :=
  if 0 ≤ i ∧ i.toNat < sc.heapItems.length then
    some { sc with heapItems := sc.heapItems.set i.toNat v }
  else none

/-- `items[i].GetSequence()`: panics when `i` is out of range or the slot is nil. -/
def rawSeq (sc : StateCache) (i : Int) : Option Nat :=
  match slotGet sc i with
  | some (some id) => some ((getItem sc id).GetSequence)
  | _ => none

/-- `items[i].SetQueuePos(pos)`: panics when `i` is out of range or the slot is nil. -/
def rawSetQueuePos (sc : StateCache) (i pos : Int) : Option StateCache :=
  match slotGet sc i with
  | some (some id) => some (setItem sc id ((getItem sc id).SetQueuePos pos))
  | _ => none

/-- `items[i], items[j] = items[j], items[i]` -/
def rawSwapSlots (sc : StateCache) (i j : Int) : Option StateCache :=
  match slotGet sc i, slotGet sc j with
  | some a, some b =>
    match slotSet sc i b with
    | some sc => slotSet sc j a
    | none => none
  | _, _ => none

/-- two items carry the same B-tree key when neither is `Less` than the
other; this is how the B-tree decides equality. -/
def sameKeyB (a b : CacheItem) : Bool := !a.Less b && !b.Less a

/-- `tree.Get(probe)`: the stored item with the probe's key, if any. -/
def btreeGet (sc : StateCache) (t : List ItemId) (probe : CacheItem) : Option ItemId :=
  t.find? (fun id => sameKeyB probe (getItem sc id))

/-- `tree.ReplaceOrInsert(item)`: replace the entry with the same key, or
insert keeping the list sorted by `Less`. -/
def btreeInsertList (sc : StateCache) (t : List ItemId) (id : ItemId) : List ItemId :=
  match t with
  | [] => [id]
  | h :: rest =>
    if sameKeyB (getItem sc id) (getItem sc h) then id :: rest
    else if (getItem sc id).Less (getItem sc h) then id :: h :: rest
    else h :: btreeInsertList sc rest id

/-- `tree.Delete(probe)`: remove the entry with the probe's key, if any. -/
def btreeDeleteList (sc : StateCache) (t : List ItemId) (probe : CacheItem) : List ItemId :=
  match t with
  | [] => []
  | h :: rest =>
    if sameKeyB probe (getItem sc h) then rest
    else h :: btreeDeleteList sc rest probe

/-! ## The two heaps and the `container/heap` algorithms

`ReadHeap` addresses the array directly at `[0, readEnd)`; `WriteHeap`
addresses logical position `i` at raw index `len-1-i` — except in its
`Swap`, which updates the two `queuePos` fields at the *raw* indices `i`
and `j` while swapping the slots at the reflected indices. -/

inductive HeapKind where
  | readq
  | writeq
deriving DecidableEq

def hLen (sc : StateCache) : HeapKind → Nat
  | .readq => sc.readEnd
  | .writeq => sc.heapItems.length - sc.writeStart

def hLess (sc : StateCache) (k : HeapKind) (i j : Nat) : Option Bool :=
  match k with
  | .readq =>
    match rawSeq sc i, rawSeq sc j with
    | some si, some sj => some (decide (si < sj))
    | _, _ => none
  | .writeq =>
    match rawSeq sc ((sc.heapItems.length : Int) - 1 - i),
        rawSeq sc ((sc.heapItems.length : Int) - 1 - j) with
    | some si, some sj => some (decide (si < sj))
    | _, _ => none

def hSwap (sc : StateCache) (k : HeapKind) (i j : Int) : Option StateCache :=
  match k with
  | .readq =>
    -- Swap queue positions in the B-tree leaves too
    match rawSetQueuePos sc i j with
    | none => none
    | some sc =>
      match rawSetQueuePos sc j i with
      | none => none
      | some sc => rawSwapSlots sc i j
  | .writeq =>
    -- As in the source: the queue positions are updated on the items at
    -- raw indices i and j, but the slots swapped are the reflected ones.
    match rawSetQueuePos sc i j with
    | none => none
    | some sc =>
      match rawSetQueuePos sc j i with
      | none => none
      | some sc =>
        rawSwapSlots sc ((sc.heapItems.length : Int) - 1 - i)
          ((sc.heapItems.length : Int) - 1 - j)

/-- the `Push` methods: read heap appends at `readEnd`, write heap grows
downward at `writeStart - 1`. -/
def hPush (sc : StateCache) (k : HeapKind) (id : ItemId) : Option StateCache :=
  match k with
  | .readq =>
    match slotSet sc (sc.readEnd : Int) (some id) with
    | none => none
    | some sc => some { sc with readEnd := sc.readEnd + 1 }
  | .writeq =>
    if sc.writeStart = 0 then none
    else
      match slotSet { sc with writeStart := sc.writeStart - 1 }
          ((sc.writeStart : Int) - 1) (some id) with
      | none => none
      | some sc => some sc

/-- the `Pop` methods: read heap shrinks at `readEnd - 1` and returns that
slot, write heap shrinks at `writeStart` and returns that slot. -/
def hPop (sc : StateCache) (k : HeapKind) : Option (StateCache × Option ItemId) :=
  match k with
  | .readq =>
    if sc.readEnd = 0 then none
    else
      match slotGet sc ((sc.readEnd : Int) - 1) with
      | none => none
      | some v => some ({ sc with readEnd := sc.readEnd - 1 }, v)
  | .writeq =>
    match slotGet sc (sc.writeStart : Int) with
    | none => none
    | some v => some ({ sc with writeStart := sc.writeStart + 1 }, v)

/-- `container/heap`'s sift-up loop.  The first argument is an iteration
bound: the parent index `(j-1)/2` strictly decreases, so any bound above
the start index is never exhausted; exhaustion returns `none` so that a
too-small bound can never prove an evaluation result. -/
def heapUp (k : HeapKind) : Nat → StateCache → Nat → Option StateCache
  | 0, _, _ => none
  | fuel + 1, sc, j =>
    -- i := (j-1)/2; for j = 0 Go computes (-1)/2 = 0, as Nat subtraction does
    let i := (j - 1) / 2
    if i == j then some sc
    else
      match hLess sc k j i with
      | none => none
      | some false => some sc
      | some true =>
        match hSwap sc k (i : Int) (j : Int) with
        | none => none
        | some sc => heapUp k fuel sc i

/-- `container/heap`'s sift-down loop, returning the final index.  The
index strictly increases and stays below `n`, so a bound above `n` is
never exhausted. -/
def heapDownLoop (k : HeapKind) : Nat → StateCache → Nat → Nat → Option (StateCache × Nat)
  | 0, _, _, _ => none
  | fuel + 1, sc, i, n =>
    if 2 * i + 1 ≥ n then some (sc, i)  -- also covers Go's int-overflow guard j1 < 0
    else
      let j1 := 2 * i + 1
      let jo : Option Nat :=
        if j1 + 1 < n then
          match hLess sc k (j1 + 1) j1 with
          | none => none
          | some true => some (j1 + 1)
          | some false => some j1
        else some j1
      match jo with
      | none => none
      | some j =>
        match hLess sc k j i with
        | none => none
        | some false => some (sc, i)
        | some true =>
          match hSwap sc k (i : Int) (j : Int) with
          | none => none
          | some sc => heapDownLoop k fuel sc j n

/-- `down(h, i0, n)`: returns whether the element moved. -/
def heapDown (sc : StateCache) (k : HeapKind) (i0 n : Nat) : Option (StateCache × Bool) :=
  match heapDownLoop k (n + 1) sc i0 n with
  | none => none
  | some (sc, i) => some (sc, decide (i0 < i))

/-- `heap.Push(h, x)` -/
def heapPushItem (sc : StateCache) (k : HeapKind) (id : ItemId) : Option StateCache :=
  match hPush sc k id with
  | none => none
  | some sc => heapUp k (hLen sc k) sc (hLen sc k - 1)

/-- `heap.Pop(h)`.  On an empty heap Go computes `n = -1` and `Swap(0, -1)`
dereferences index `-1`: a panic for both heaps. -/
def heapPopItem (sc : StateCache) (k : HeapKind) : Option (StateCache × Option ItemId) :=
  if hLen sc k = 0 then none
  else
    let n := hLen sc k - 1
    match hSwap sc k 0 (n : Int) with
    | none => none
    | some sc =>
      match heapDown sc k 0 n with
      | none => none
      | some (sc, _) => hPop sc k

/-- `heap.Fix(h, i)`.  For `i = -1` both `down` and `up` terminate at once
without touching the array (Go: `(-1-1)/2 = -1`); for `i ≤ -2` the `up`
loop reads a negative index: panic. -/
def heapFixItem (sc : StateCache) (k : HeapKind) (i : Int) : Option StateCache :=
  if 0 ≤ i then
    match heapDown sc k i.toNat (hLen sc k) with
    | none => none
    | some (sc, true) => some sc
    | some (sc, false) => heapUp k (i.toNat + 1) sc i.toNat
  else if i = -1 then some sc
  else none

/-- `heap.Remove(h, i)` -/
def heapRemoveItem (sc : StateCache) (k : HeapKind) (i : Int) :
    Option (StateCache × Option ItemId) :=
  let n : Int := (hLen sc k : Int) - 1
  if n = i then hPop sc k
  else
    match hSwap sc k i n with
    | none => none
    | some sc =>
      match heapDown sc k i.toNat n.toNat with
      | none => none
      | some (sc, true) => hPop sc k
      | some (sc, false) =>
        match heapUp k (i.toNat + 1) sc i.toNat with
        | none => none
        | some sc => hPop sc k

def heapInitGo (k : HeapKind) (n : Nat) : StateCache → List Nat → Option StateCache
  | sc, [] => some sc
  | sc, i :: rest =>
    match heapDown sc k i n with
    | none => none
    | some (sc, _) => heapInitGo k n sc rest

/-- `heap.Init(h)`: `down(h, i, n)` for `i = n/2 - 1` down to `0`. -/
def heapInit (sc : StateCache) (k : HeapKind) : Option StateCache :=
  heapInitGo k (hLen sc k) sc (List.range (hLen sc k / 2)).reverse

/-! ## Public API -/

/-- `NewStateCache(degree, limitReads, limitWrites)`: empty B-trees, one
shared backing array of size `limitReads + limitWrites`, empty read queue
at the left end, empty write queue at the right end.  The B-tree degree is
a performance knob with no observable effect in the model. -/
def NewStateCache (_degree limitReads limitWrites : Nat) : StateCache :=
  { store := []
    readWrites := []
    writes := []
    heapItems := List.replicate (limitReads + limitWrites) none
    readEnd := 0
    writeStart := limitReads + limitWrites
    limitReads := limitReads
    limitWrites := limitWrites
    sequence := 0 }

/-- key-only stub items used by the lookups and setters to probe the B-trees. -/
def accountProbe (address : List Nat) : CacheItem :=
  .accountItem (copyFixed 20 address) 0 0 0 0

def storageProbe (address : List Nat) (incarnation : Nat) (location : List Nat) : CacheItem :=
  .storageItem (copyFixed 20 address) incarnation (copyFixed 32 location)
    (List.replicate 32 0) 0 0 0

def codeProbe (address : List Nat) : CacheItem :=
  .codeItem (copyFixed 20 address) none 0 0 0

/-- `(sc *StateCache) get(key)`: probe `readWrites`; an item carrying
`DeletedFlag` is reported exactly like an absent key (`nil, false`). -/
def StateCache.get (sc : StateCache) (key : CacheItem) : Option ItemId :=
  match btreeGet sc sc.readWrites key with
  | none => none
  | some id => if (getItem sc id).HasFlag DeletedFlag then none else some id

/-- `GetAccount`: outer `none` is a panic (failed type assertion), the
`Bool` is the `ok` return value. -/
def GetAccount (sc : StateCache) (address : List Nat) : Option (Option Nat × Bool) :=
  match sc.get (accountProbe address) with
  | some id =>
    match getItem sc id with
    | .accountItem _ acct _ _ _ => some (some acct, true)
    | _ => none
  | none => some (none, false)

def GetStorage (sc : StateCache) (address : List Nat) (incarnation : Nat)
    (location : List Nat) : Option (Option (List Nat) × Bool) :=
  match sc.get (storageProbe address incarnation location) with
  | some id =>
    match getItem sc id with
    | .storageItem _ _ _ v _ _ _ => some (some v, true)
    | _ => none
  | none => some (none, false)

/-- `GetCode`: on the not-found path the source returns `nil, true`. -/
def GetCode (sc : StateCache) (address : List Nat) : Option (Option (List Nat) × Bool) :=
  match sc.get (codeProbe address) with
  | some id =>
    match getItem sc id with
    | .codeItem _ c _ _ _ => some (c, true)
    | _ => none
  | none => some (none, true)

/-- `readWrites.Delete(items[0])` with a raw slot value: `btree.Delete(nil)`
is a no-op on an empty tree, but on a nonempty tree the comparator calls a
method of the nil interface: panic. -/
def btreeDeleteRawSlot (sc : StateCache) (slot : Option ItemId) : Option StateCache :=
  match slot with
  | none => if sc.readWrites.isEmpty then some sc else none
  | some oldId =>
    some { sc with readWrites := btreeDeleteList sc sc.readWrites (getItem sc oldId) }

/-- `setRead(item)`: panic when the key is already cached; assign queue
position 0 and the current sequence (which is not incremented); insert into
`readWrites`; then either evict the root of the read heap in place or push. -/
def setRead (sc : StateCache) (item : CacheItem) : Option StateCache :=
  match btreeGet sc sc.readWrites item with
  | some _ => none  -- panic: item must not be present in the cache before doing setRead
  | none =>
    let item := (item.SetQueuePos 0).SetSequence sc.sequence
    let id := sc.store.length
    let sc := { sc with store := sc.store ++ [item] }
    let sc := { sc with readWrites := btreeInsertList sc sc.readWrites id }
    if hLen sc .readq ≥ sc.limitReads then
      -- Read queue cannot grow anymore, need to evict one element
      match slotGet sc 0 with
      | none => none
      | some slot0 =>
        match btreeDeleteRawSlot sc slot0 with
        | none => none
        | some sc =>
          match slotSet sc 0 (some id) with
          | none => none
          | some sc => heapFixItem sc .readq 0
    else
      -- Push new element on the read queue
      heapPushItem sc .readq id

def SetAccountRead (sc : StateCache) (address : List Nat) (account : Nat) :
    Option StateCache :=
  setRead sc (.accountItem (copyFixed 20 address) account 0 0 0)

def SetAccountAbsent (sc : StateCache) (address : List Nat) : Option StateCache :=
  setRead sc (.accountItem (copyFixed 20 address) 0 0 0 DeletedFlag)

def SetStorageRead (sc : StateCache) (address : List Nat) (incarnation : Nat)
    (location value : List Nat) : Option StateCache :=
  setRead sc (.storageItem (copyFixed 20 address) incarnation (copyFixed 32 location)
    (copyFixed 32 value) 0 0 0)

def SetStorageAbsent (sc : StateCache) (address : List Nat) (incarnation : Nat)
    (location : List Nat) : Option StateCache :=
  setRead sc (.storageItem (copyFixed 20 address) incarnation (copyFixed 32 location)
    (List.replicate 32 0) 0 0 DeletedFlag)

def SetCodeRead (sc : StateCache) (address code : List Nat) : Option StateCache :=
  setRead sc (.codeItem (copyFixed 20 address) (some code) 0 0 0)

def SetCodeAbsent (sc : StateCache) (address : List Nat) : Option StateCache :=
  setRead sc (.codeItem (copyFixed 20 address) none 0 0 DeletedFlag)

/-- the eviction step shared by the write paths:
`readWrites.Delete(heap.Pop(&readQueue).(btree.Item))`; a nil popped value
fails the type assertion. -/
def evictMinRead (sc : StateCache) : Option StateCache :=
  match heapPopItem sc .readq with
  | none => none
  | some (_, none) => none
  | some (sc, some popId) =>
    some { sc with readWrites := btreeDeleteList sc sc.readWrites (getItem sc popId) }

/-- `SetAccountWrite`: update in `writes`, else upgrade the `readWrites`
entry (moving it from the read heap to the write heap — without inserting
it into `writes`), else insert a fresh dirty item into the write heap and
both B-trees. -/
def SetAccountWrite (sc : StateCache) (address : List Nat) (account : Nat) :
    Option StateCache :=
  let probe := accountProbe address
  match btreeGet sc sc.writes probe with
  | some id =>
    match getItem sc id with
    | .accountItem a _ _ qp _ =>
      let sc := setItem sc id (.accountItem a account sc.sequence qp ModifiedFlag)
      let sc := { sc with sequence := sc.sequence + 1 }
      heapFixItem sc .writeq qp
    | _ => none
  | none =>
  match btreeGet sc sc.readWrites probe with
  | some id =>
    match getItem sc id with
    | .accountItem a _ _ qp _ =>
      let sc := setItem sc id (.accountItem a account sc.sequence qp ModifiedFlag)
      let sc := { sc with sequence := sc.sequence + 1 }
      -- Remove from the reads heap
      match heapRemoveItem sc .readq qp with
      | none => none
      | some (sc, _) =>
        let sc := setItem sc id ((getItem sc id).SetQueuePos ((hLen sc .writeq : Int)))
        heapPushItem sc .writeq id
    | _ => none
  | none =>
  if hLen sc .writeq ≥ sc.limitWrites then none  -- panic: commit writes before proceeding
  else
    match (if hLen sc .readq + hLen sc .writeq ≥ sc.limitReads + sc.limitWrites then
        evictMinRead sc
      else some sc) with
    | none => none
    | some sc =>
      let id := sc.store.length
      let item : CacheItem :=
        .accountItem (copyFixed 20 address) account sc.sequence
          ((hLen sc .writeq : Int)) ModifiedFlag
      let sc := { sc with store := sc.store ++ [item], sequence := sc.sequence + 1 }
      match heapPushItem sc .writeq id with
      | none => none
      | some sc =>
        let sc := { sc with readWrites := btreeInsertList sc sc.readWrites id }
        some { sc with writes := btreeInsertList sc sc.writes id }

/-- `SetAccountDelete`: like `SetAccountWrite` but resets the account body;
flags are `MODIFIED|DELETED` on the two update paths but only `DELETED` on
the fresh-insert path. -/
def SetAccountDelete (sc : StateCache) (address : List Nat) : Option StateCache :=
  let probe := accountProbe address
  match btreeGet sc sc.writes probe with
  | some id =>
    match getItem sc id with
    | .accountItem a _ _ qp _ =>
      let sc := setItem sc id
        (.accountItem a 0 sc.sequence qp (Nat.lor ModifiedFlag DeletedFlag))
      let sc := { sc with sequence := sc.sequence + 1 }
      heapFixItem sc .writeq qp
    | _ => none
  | none =>
  match btreeGet sc sc.readWrites probe with
  | some id =>
    match getItem sc id with
    | .accountItem a _ _ qp _ =>
      let sc := setItem sc id
        (.accountItem a 0 sc.sequence qp (Nat.lor ModifiedFlag DeletedFlag))
      let sc := { sc with sequence := sc.sequence + 1 }
      -- Remove from the reads heap
      match heapRemoveItem sc .readq qp with
      | none => none
      | some (sc, _) =>
        let sc := setItem sc id ((getItem sc id).SetQueuePos ((hLen sc .writeq : Int)))
        heapPushItem sc .writeq id
    | _ => none
  | none =>
  if hLen sc .writeq ≥ sc.limitWrites then none  -- panic: commit writes before proceeding
  else
    match (if hLen sc .readq + hLen sc .writeq ≥ sc.limitReads + sc.limitWrites then
        evictMinRead sc
      else some sc) with
    | none => none
    | some sc =>
      let id := sc.store.length
      let item : CacheItem :=
        .accountItem (copyFixed 20 address) 0 sc.sequence
          ((hLen sc .writeq : Int)) DeletedFlag
      let sc := { sc with store := sc.store ++ [item], sequence := sc.sequence + 1 }
      match heapPushItem sc .writeq id with
      | none => none
      | some sc =>
        let sc := { sc with readWrites := btreeInsertList sc sc.readWrites id }
        some { sc with writes := btreeInsertList sc sc.writes id }

/-- `SetStorageWrite`: as `SetAccountWrite`, except that the fresh-insert
path pushes the new item on the write heap without inserting it into
either B-tree. -/
def SetStorageWrite (sc : StateCache) (address : List Nat) (incarnation : Nat)
    (location value : List Nat) : Option StateCache :=
  let probe := storageProbe address incarnation location
  match btreeGet sc sc.writes probe with
  | some id =>
    match getItem sc id with
    | .storageItem a i l v _ qp _ =>
      let sc := setItem sc id
        (.storageItem a i l (copyInto v value) sc.sequence qp ModifiedFlag)
      let sc := { sc with sequence := sc.sequence + 1 }
      heapFixItem sc .writeq qp
    | _ => none
  | none =>
  match btreeGet sc sc.readWrites probe with
  | some id =>
    match getItem sc id with
    | .storageItem a i l v _ qp _ =>
      let sc := setItem sc id
        (.storageItem a i l (copyInto v value) sc.sequence qp ModifiedFlag)
      let sc := { sc with sequence := sc.sequence + 1 }
      -- Remove from the reads heap
      match heapRemoveItem sc .readq qp with
      | none => none
      | some (sc, _) =>
        let sc := setItem sc id ((getItem sc id).SetQueuePos ((hLen sc .writeq : Int)))
        heapPushItem sc .writeq id
    | _ => none
  | none =>
  if hLen sc .writeq ≥ sc.limitWrites then none  -- panic: commit writes before proceeding
  else
    match (if hLen sc .readq + hLen sc .writeq ≥ sc.limitReads + sc.limitWrites then
        evictMinRead sc
      else some sc) with
    | none => none
    | some sc =>
      let id := sc.store.length
      let item : CacheItem :=
        .storageItem (copyFixed 20 address) incarnation (copyFixed 32 location)
          (copyFixed 32 value) sc.sequence ((hLen sc .writeq : Int)) ModifiedFlag
      let sc := { sc with store := sc.store ++ [item], sequence := sc.sequence + 1 }
      -- Push new element on the write queue; no B-tree insertion happens here
      heapPushItem sc .writeq id

/-- `SetStorageDelete`: flags `MODIFIED|DELETED` on the update paths (value
left as it was), only `DELETED` on the fresh path; the fresh path inserts
into no B-tree. -/
def SetStorageDelete (sc : StateCache) (address : List Nat) (incarnation : Nat)
    (location : List Nat) : Option StateCache :=
  let probe := storageProbe address incarnation location
  match btreeGet sc sc.writes probe with
  | some id =>
    match getItem sc id with
    | .storageItem a i l v _ qp _ =>
      let sc := setItem sc id
        (.storageItem a i l v sc.sequence qp (Nat.lor ModifiedFlag DeletedFlag))
      let sc := { sc with sequence := sc.sequence + 1 }
      heapFixItem sc .writeq qp
    | _ => none
  | none =>
  match btreeGet sc sc.readWrites probe with
  | some id =>
    match getItem sc id with
    | .storageItem a i l v _ qp _ =>
      let sc := setItem sc id
        (.storageItem a i l v sc.sequence qp (Nat.lor ModifiedFlag DeletedFlag))
      let sc := { sc with sequence := sc.sequence + 1 }
      -- Remove from the reads heap
      match heapRemoveItem sc .readq qp with
      | none => none
      | some (sc, _) =>
        let sc := setItem sc id ((getItem sc id).SetQueuePos ((hLen sc .writeq : Int)))
        heapPushItem sc .writeq id
    | _ => none
  | none =>
  if hLen sc .writeq ≥ sc.limitWrites then none  -- panic: commit writes before proceeding
  else
    match (if hLen sc .readq + hLen sc .writeq ≥ sc.limitReads + sc.limitWrites then
        evictMinRead sc
      else some sc) with
    | none => none
    | some sc =>
      let id := sc.store.length
      let item : CacheItem :=
        .storageItem (copyFixed 20 address) incarnation (copyFixed 32 location)
          (List.replicate 32 0) sc.sequence ((hLen sc .writeq : Int)) DeletedFlag
      let sc := { sc with store := sc.store ++ [item], sequence := sc.sequence + 1 }
      -- Push new element on the write queue; no B-tree insertion happens here
      heapPushItem sc .writeq id

/-- `SetCodeWrite`: as `SetStorageWrite`: the fresh path inserts into no
B-tree. -/
def SetCodeWrite (sc : StateCache) (address code : List Nat) : Option StateCache :=
  let probe := codeProbe address
  match btreeGet sc sc.writes probe with
  | some id =>
    match getItem sc id with
    | .codeItem a _ _ qp _ =>
      let sc := setItem sc id (.codeItem a (some code) sc.sequence qp ModifiedFlag)
      let sc := { sc with sequence := sc.sequence + 1 }
      heapFixItem sc .writeq qp
    | _ => none
  | none =>
  match btreeGet sc sc.readWrites probe with
  | some id =>
    match getItem sc id with
    | .codeItem a _ _ qp _ =>
      let sc := setItem sc id (.codeItem a (some code) sc.sequence qp ModifiedFlag)
      let sc := { sc with sequence := sc.sequence + 1 }
      -- Remove from the reads heap
      match heapRemoveItem sc .readq qp with
      | none => none
      | some (sc, _) =>
        let sc := setItem sc id ((getItem sc id).SetQueuePos ((hLen sc .writeq : Int)))
        heapPushItem sc .writeq id
    | _ => none
  | none =>
  if hLen sc .writeq ≥ sc.limitWrites then none  -- panic: commit writes before proceeding
  else
    match (if hLen sc .readq + hLen sc .writeq ≥ sc.limitReads + sc.limitWrites then
        evictMinRead sc
      else some sc) with
    | none => none
    | some sc =>
      let id := sc.store.length
      let item : CacheItem :=
        .codeItem (copyFixed 20 address) (some code) sc.sequence
          ((hLen sc .writeq : Int)) ModifiedFlag
      let sc := { sc with store := sc.store ++ [item], sequence := sc.sequence + 1 }
      -- Push new element on the write queue; no B-tree insertion happens here
      heapPushItem sc .writeq id

/-- `SetCodeDelete`: on the already-dirty path the flags are set to
`MODIFIED` only; on the other two paths to `MODIFIED|DELETED`; the fresh
path inserts into no B-tree. -/
def SetCodeDelete (sc : StateCache) (address : List Nat) : Option StateCache :=
  let probe := codeProbe address
  match btreeGet sc sc.writes probe with
  | some id =>
    match getItem sc id with
    | .codeItem a _ _ qp _ =>
      let sc := setItem sc id (.codeItem a none sc.sequence qp ModifiedFlag)
      let sc := { sc with sequence := sc.sequence + 1 }
      heapFixItem sc .writeq qp
    | _ => none
  | none =>
  match btreeGet sc sc.readWrites probe with
  | some id =>
    match getItem sc id with
    | .codeItem a _ _ qp _ =>
      let sc := setItem sc id
        (.codeItem a none sc.sequence qp (Nat.lor ModifiedFlag DeletedFlag))
      let sc := { sc with sequence := sc.sequence + 1 }
      -- Remove from the reads heap
      match heapRemoveItem sc .readq qp with
      | none => none
      | some (sc, _) =>
        let sc := setItem sc id ((getItem sc id).SetQueuePos ((hLen sc .writeq : Int)))
        heapPushItem sc .writeq id
    | _ => none
  | none =>
  if hLen sc .writeq ≥ sc.limitWrites then none  -- panic: commit writes before proceeding
  else
    match (if hLen sc .readq + hLen sc .writeq ≥ sc.limitReads + sc.limitWrites then
        evictMinRead sc
      else some sc) with
    | none => none
    | some sc =>
      let id := sc.store.length
      let item : CacheItem :=
        .codeItem (copyFixed 20 address) none sc.sequence
          ((hLen sc .writeq : Int)) (Nat.lor ModifiedFlag DeletedFlag)
      let sc := { sc with store := sc.store ++ [item], sequence := sc.sequence + 1 }
      -- Push new element on the write queue; no B-tree insertion happens here
      heapPushItem sc .writeq id

/-- the `writes.Ascend` body of `TurnWritesToReads`: recompute `queuePos`
relative to the read region and clear `MODIFIED`. -/
def twtrAscend (writeLen : Int) : StateCache → List ItemId → StateCache
  | sc, [] => sc
  | sc, id :: rest =>
    let it := getItem sc id
    let it := it.SetQueuePos ((sc.readEnd : Int) + writeLen - it.GetQueuePos)
    let it := it.ClearFlags ModifiedFlag
    twtrAscend writeLen (setItem sc id it) rest

/-- Go's `copy(l[dst:], l[src:src+cnt])` with memmove semantics: the
source region is read before the destination is overwritten. -/
def memCopy (items : List (Option ItemId)) (dst src cnt : Nat) : List (Option ItemId) :=
  items.take dst ++ (items.drop src).take cnt ++ items.drop (dst + cnt)

/-- `TurnWritesToReads`: clear `MODIFIED` on the items in the `writes`
B-tree (which is itself left untouched), move the write region onto the
end of the read region, empty the write region, re-heapify the read heap. -/
def TurnWritesToReads (sc : StateCache) : Option StateCache :=
  let writeLen : Int := (hLen sc .writeq : Int) - 1
  let sc := twtrAscend writeLen sc sc.writes
  -- Merge write queue into the read queue
  let n := sc.heapItems.length
  let cnt := min (n - sc.readEnd) (n - sc.writeStart)
  let sc := { sc with heapItems := memCopy sc.heapItems sc.readEnd sc.writeStart cnt }
  let sc := { sc with readEnd := sc.readEnd + (n - sc.writeStart), writeStart := n }
  heapInit sc .readq

/-- `|readWrites|` -/
def sizeReadWrites (sc : StateCache) : Nat := sc.readWrites.length

/-- `|writes|` -/
def sizeWrites (sc : StateCache) : Nat := sc.writes.length

/-- the live item stored under the probe's key, if any. -/
def itemByKey (sc : StateCache) (probe : CacheItem) : Option CacheItem :=
  (btreeGet sc sc.readWrites probe).map (getItem sc)

/-! ## Claims -/

/-- C9: `Less` implements the documented total order over the
heterogeneous item set — primary key the address lexicographically, at the
same address Account < Code < Storage, within Storage ascending
incarnation then lexicographic location — and for every pair of items
exactly one of `a < b`, `b < a`, or key-equality holds.  Consequently
in-order iteration from an account key yields that address's account, then
its code, then its storage slots, before any item of a larger address. -/
theorem Less_implements_documented_total_order (x y : CacheItem) :
    x.Less y = specKeyLess x.key y.key ∧
    ((x.key = y.key ∧ x.Less y = false ∧ y.Less x = false)
      ∨ (x.Less y = true ∧ y.Less x = false ∧ x.key ≠ y.key)
      ∨ (y.Less x = true ∧ x.Less y = false ∧ x.key ≠ y.key)) :=
  ⟨Less_eq_specKeyLess x y, Less_trichotomy x y⟩

/-- C9 witness: the order theorem applied at two concrete items — an
account and a code item of the same address. -/
theorem Less_implements_documented_total_order_witness :
    (CacheItem.accountItem [1] 0 0 0 0).Less (CacheItem.codeItem [1] none 0 0 0)
      = specKeyLess (CacheItem.accountItem [1] 0 0 0 0).key
        (CacheItem.codeItem [1] none 0 0 0).key :=
  (Less_implements_documented_total_order (CacheItem.accountItem [1] 0 0 0 0)
    (CacheItem.codeItem [1] none 0 0 0)).1

/-- C1: the claim states `SetXWrite(k, v); GetX(k) == v` with insertion of
a fresh write entry into both B-trees, for all three kinds.  The account
setter satisfies it, but the fresh paths of `SetStorageWrite` and
`SetCodeWrite` push the new item on the write heap only: neither B-tree
index learns of it, and the subsequent lookup misses (for code it even
reports `ok = true` with nil code). -/
theorem fresh_storage_and_code_writes_are_lost :
    ((SetStorageWrite (NewStateCache 32 1 1) [1] 1 [2] [9]).map (fun sc =>
      (GetStorage sc [1] 1 [2], sizeReadWrites sc, sizeWrites sc)))
      = some (some (none, false), 0, 0) ∧
    ((SetCodeWrite (NewStateCache 32 1 1) [1] [9]).map (fun sc =>
      (GetCode sc [1], sizeReadWrites sc, sizeWrites sc)))
      = some (some (none, true), 0, 0) ∧
    ((SetAccountWrite (NewStateCache 32 2 2) [1] 5).map (fun sc =>
      (GetAccount sc [1], sizeReadWrites sc, sizeWrites sc)))
      = some (some (some 5, true), 1, 1) := by
  refine ⟨by decide, by decide, by decide⟩

/-- C2: upgrading a clean read with `SetAccountWrite` updates the item in
place, moves it from the read heap to the write heap, and `GetAccount`
returns the new value — but the item is never inserted into the `writes`
B-tree, so `|writes| = 0` afterwards, not `1` as claimed. -/
theorem upgrade_of_clean_read_skips_writes_index :
    ((SetAccountRead (NewStateCache 32 2 2) [1] 5).bind (fun sc =>
      SetAccountWrite sc [1] 7)).map (fun sc =>
      (GetAccount sc [1], sizeReadWrites sc, sizeWrites sc, hLen sc .readq, hLen sc .writeq))
    = some (some (some 7, true), 1, 0, 0, 1) := by decide

/-- C3: the claim states that after `TurnWritesToReads` no live item has
`MODIFIED` set and `|writes| = 0`.  The source clears `MODIFIED` only for
items registered in the `writes` B-tree and never empties that tree: after
a single account write and a commit, `|writes| = 1`; after a fresh storage
write (which never reaches `writes`) and a commit, the item moved into the
read region still carries `MODIFIED`. -/
theorem turnWritesToReads_leaves_writes_index_and_modified_flags :
    (((SetAccountWrite (NewStateCache 32 2 2) [1] 5).bind TurnWritesToReads).map
      sizeWrites) = some 1 ∧
    (((SetStorageWrite (NewStateCache 32 1 1) [1] 1 [2] [9]).bind TurnWritesToReads).map
      (fun sc => (sizeWrites sc,
        (slotGet sc 0).map (Option.map (fun id => (getItem sc id).HasFlag ModifiedFlag)))))
      = some (0, some (some true)) := by
  refine ⟨by decide, by decide⟩

/-- C4: the claim states `H[pos_of(item)] = item` for every live item, in
particular that every heap push leaves `queue_pos` equal to the pushed
item's position.  `ReadHeap.Push` never writes `queue_pos`: after two
fresh reads the second item sits at read-heap position 1 while its
`queue_pos` is still the 0 assigned by `setRead`, and the slot at its
`queue_pos` holds the other item. -/
theorem read_push_leaves_stale_queue_position :
    ((SetAccountRead (NewStateCache 32 2 2) [1] 5).bind (fun sc =>
      SetAccountRead sc [2] 6)).map (fun sc =>
      (sc.readEnd, slotGet sc 1, (getItem sc 1).GetQueuePos,
        (slotGet sc ((getItem sc 1).GetQueuePos)).map (Option.map (fun id =>
          decide ((getItem sc id).key = (getItem sc 1).key)))))
    = some (2, some (some 1), 0, some (some false)) := by decide

/-- C5: the claim states a strictly increasing sequence on every touch and
that no two live items share a sequence value.  `setRead` stores the
current sequence without incrementing it: after two fresh reads both live
items carry sequence 0 and the counter is still 0. -/
theorem setRead_does_not_advance_sequence :
    ((SetAccountRead (NewStateCache 32 2 2) [1] 5).bind (fun sc =>
      SetAccountRead sc [2] 6)).map (fun sc =>
      (sizeReadWrites sc, (getItem sc 0).GetSequence, (getItem sc 1).GetSequence, sc.sequence))
    = some (2, 0, 0, 0) := by decide

/-- C6: the claim states every `SetXDelete` leaves a dirty tombstone
(`MODIFIED|DELETED`, value zeroed / code nulled) in all three cases.  On
the previously-absent path `SetAccountDelete` sets only `DELETED`, and on
the clean-read path `SetStorageDelete` leaves the old value bytes in
place. -/
theorem setDelete_flags_and_value_not_as_claimed :
    ((SetAccountDelete (NewStateCache 32 2 2) [1]).map (fun sc =>
      (itemByKey sc (accountProbe [1])).map (fun it =>
        (it.HasFlag ModifiedFlag, it.HasFlag DeletedFlag))))
      = some (some (false, true)) ∧
    (((SetStorageRead (NewStateCache 32 2 2) [1] 1 [2] [9]).bind (fun sc =>
      SetStorageDelete sc [1] 1 [2])).map (fun sc =>
      (itemByKey sc (storageProbe [1] 1 [2])).map (fun it =>
        (it.HasFlag ModifiedFlag, it.HasFlag DeletedFlag,
          match it with
          | .storageItem _ _ _ v _ _ _ => decide (v = List.replicate 32 0)
          | _ => true))))
      = some (some (true, true, false)) := by
  refine ⟨by decide, by decide⟩

/-- C7 counterexample: the claim states that a tombstoned key is observed
as present-but-absent, distinguishable from a plain miss.  After
`SetAccountAbsent` the tombstoned address and a never-seen address produce
the identical lookup result `(nil, false)`. -/
theorem tombstone_lookup_equals_miss_counterexample :
    (SetAccountAbsent (NewStateCache 32 2 2) [1]).map (fun sc =>
      (GetAccount sc [1], GetAccount sc [2],
        decide (GetAccount sc [1] = GetAccount sc [2])))
    = some (some (none, false), some (none, false), true) := by decide

/-- a state holding a tombstone of every kind at address `0x01`: an absent
account, an absent storage slot `(0x01, 1, 0x02)`, and absent code. -/
def tombstoneScenario : StateCache :=
  (((SetAccountAbsent (NewStateCache 32 4 4) [1]).bind (fun sc =>
    SetStorageAbsent sc [1] 1 [2])).bind (fun sc =>
    SetCodeAbsent sc [1])).getD (NewStateCache 0 0 0)

/-- C7 (amended): each lookup has only two distinguishable outcomes; a
cached item with `DELETED` set is reported by each of the three lookups
exactly like a key that is not cached at all — `GetAccount` and
`GetStorage` return `(nil, false)` in both cases, and `GetCode` returns
`(nil, true)` in both cases. -/
theorem tombstone_lookup_reported_as_miss (sc : StateCache) (a b : List Nat)
    (inc : Nat) (loc : List Nat)
    (haA : ∃ id, btreeGet sc sc.readWrites (accountProbe a) = some id ∧
      (getItem sc id).HasFlag DeletedFlag = true)
    (hbA : btreeGet sc sc.readWrites (accountProbe b) = none)
    (haS : ∃ id, btreeGet sc sc.readWrites (storageProbe a inc loc) = some id ∧
      (getItem sc id).HasFlag DeletedFlag = true)
    (hbS : btreeGet sc sc.readWrites (storageProbe b inc loc) = none)
    (haC : ∃ id, btreeGet sc sc.readWrites (codeProbe a) = some id ∧
      (getItem sc id).HasFlag DeletedFlag = true)
    (hbC : btreeGet sc sc.readWrites (codeProbe b) = none) :
    (GetAccount sc a = some (none, false) ∧ GetAccount sc a = GetAccount sc b) ∧
    (GetStorage sc a inc loc = some (none, false) ∧
      GetStorage sc a inc loc = GetStorage sc b inc loc) ∧
    (GetCode sc a = some (none, true) ∧ GetCode sc a = GetCode sc b) := by
  obtain ⟨idA, h1A, h2A⟩ := haA
  obtain ⟨idS, h1S, h2S⟩ := haS
  obtain ⟨idC, h1C, h2C⟩ := haC
  refine ⟨?_, ?_, ?_⟩
  · unfold GetAccount StateCache.get
    rw [h1A, hbA]
    simp [h2A]
  · unfold GetStorage StateCache.get
    rw [h1S, hbS]
    simp [h2S]
  · unfold GetCode StateCache.get
    rw [h1C, hbC]
    simp [h2C]

/-- C7 witness: the amended statement at the state that holds all three
kinds of tombstones for address `0x01` and nothing for `0x02`. -/
theorem tombstone_lookup_reported_as_miss_witness :
    (GetAccount tombstoneScenario [1] = some (none, false) ∧
      GetAccount tombstoneScenario [1] = GetAccount tombstoneScenario [2]) ∧
    (GetStorage tombstoneScenario [1] 1 [2] = some (none, false) ∧
      GetStorage tombstoneScenario [1] 1 [2] = GetStorage tombstoneScenario [2] 1 [2]) ∧
    (GetCode tombstoneScenario [1] = some (none, true) ∧
      GetCode tombstoneScenario [1] = GetCode tombstoneScenario [2]) :=
  tombstone_lookup_reported_as_miss tombstoneScenario [1] [2] 1 [2]
    ⟨0, by decide, by decide⟩ (by decide)
    ⟨1, by decide, by decide⟩ (by decide)
    ⟨2, by decide, by decide⟩ (by decide)

/-- C8: the claim states all three lookups report a miss with a `false`
second return value.  `GetAccount` and `GetStorage` do; `GetCode` returns
`nil, true` on its not-found path, contradicting its own doc comment. -/
theorem getCode_miss_reports_found :
    GetCode (NewStateCache 32 2 2) [1] = some (none, true) ∧
    GetAccount (NewStateCache 32 2 2) [1] = some (none, false) ∧
    GetStorage (NewStateCache 32 2 2) [1] 1 [2] = some (none, false) := by
  refine ⟨by decide, by decide, by decide⟩

/-- C10 counterexample: the claim states that with `limitReads = 0` every
read insertion panics and no read can ever be cached.  With
`limitReads = 0, limitWrites = 1`, after a fresh code write fills slot 0
of the shared array, `SetAccountRead` succeeds (the eviction branch
deletes the write item from `readWrites` and overwrites slot 0) and the
read is cached and found. -/
theorem setRead_with_zero_read_limit_can_succeed :
    ((SetCodeWrite (NewStateCache 32 0 1) [1] [7]).bind (fun sc =>
      SetAccountRead sc [2] 5)).map (fun sc => (GetAccount sc [2], sizeReadWrites sc))
    = some (some (some 5, true), 1) := by decide

/-- on a fresh cache with `limitReads = 0`, any `setRead` takes the
eviction branch and panics: slot 0 of the shared array is out of range
(both limits zero) or holds a nil interface that `readWrites.Delete`
dereferences (the tree is nonempty, the new item was just inserted). -/
theorem setRead_fresh_cache_limitReads_zero (deg lw : Nat) (it : CacheItem) :
    setRead (NewStateCache deg 0 lw) it = none := by
  cases lw with
  | zero =>
    simp [setRead, NewStateCache, btreeGet, btreeInsertList, hLen, slotGet,
      btreeDeleteRawSlot]
  | succ n =>
    simp [setRead, NewStateCache, btreeGet, btreeInsertList, hLen, slotGet,
      btreeDeleteRawSlot, List.replicate]

/-- C10 (amended): if the cache is constructed with `limitReads = 0`, the
eviction branch of `setRead` executes unconditionally; on a fresh cache —
where heap slot 0 holds no item — every `SetXRead` and `SetXAbsent` call
panics, whatever `limitWrites` is, so no read entry can be cached before
some write (or a commit) has occupied slot 0 of the shared array. -/
theorem setRead_panics_on_fresh_cache_with_zero_read_limit
    (deg lw : Nat) (a : List Nat) (v inc : Nat) (loc val c : List Nat) :
    SetAccountRead (NewStateCache deg 0 lw) a v = none ∧
    SetAccountAbsent (NewStateCache deg 0 lw) a = none ∧
    SetStorageRead (NewStateCache deg 0 lw) a inc loc val = none ∧
    SetStorageAbsent (NewStateCache deg 0 lw) a inc loc = none ∧
    SetCodeRead (NewStateCache deg 0 lw) a c = none ∧
    SetCodeAbsent (NewStateCache deg 0 lw) a = none :=
  ⟨setRead_fresh_cache_limitReads_zero deg lw _,
    setRead_fresh_cache_limitReads_zero deg lw _,
    setRead_fresh_cache_limitReads_zero deg lw _,
    setRead_fresh_cache_limitReads_zero deg lw _,
    setRead_fresh_cache_limitReads_zero deg lw _,
    setRead_fresh_cache_limitReads_zero deg lw _⟩
